import Mathlib

set_option maxHeartbeats 1000000
set_option maxRecDepth 8000

namespace ScriptLang

/-- Runtime values of the scripting language (nodes.py): Python int, str and
list are the only value kinds an expression can produce. Lists may nest. -/
inductive Value where
  | int : Int → Value
  | str : String → Value
  | list : List Value → Value

/-- Runtime faults. SemanticError is the class raised by the nodes themselves
(nodes.py line 4); the others are the builtin Python exceptions that can
escape from the interpreter code: ValueError from max() on an empty sequence,
IndexError and TypeError from raw list subscripting, KeyError from a missing
dict key, OverflowError from float conversion of a huge quotient, and the
plain Exception("Not implemented.") of the Node base class. -/
inductive Err where
  | semanticError
  | valueError
  | indexError
  | keyError
  | typeError
  | overflowError
  | notImplemented
deriving DecidableEq

/-- The global environment (globals.py global_scope): a string-keyed dict,
modelled as an association list with insert-or-overwrite update. -/
abbrev Env := List (String × Value)

/-- Dict read: first binding of the key, if any. -/
def envLookup : Env → String → Option Value
  | [], _ => none
  | (k, v) :: rest, x => if k = x then some v else envLookup rest x

/-- Dict write: overwrite the existing binding in place, else append. -/
def envSet : Env → String → Value → Env
  | [], x, v => [(x, v)]
  | (k, w) :: rest, x, v =>
      if k = x then (k, v) :: rest else (k, w) :: envSet rest x v

mutual

/-- depth (nodes.py lines 620-628): 0 for a non-list, and
1 + max(depth(item) for item in l) for a list. On the empty list Python's
max() is applied to an empty sequence and raises ValueError, which this
translation records as an error result. -/
def depth : Value → Except Err Nat
  | .int _ => .ok 0
  | .str _ => .ok 0
  | .list [] => .error .valueError
  | .list (x :: xs) => do
      let d ← depth x
      let m ← depthMaxFold d xs
      .ok (1 + m)

/-- Left-to-right accumulation of max(depth(item) for item in l), matching
the order in which Python's max consumes the generator. -/
def depthMaxFold (acc : Nat) : List Value → Except Err Nat
  | [] => .ok acc
  | y :: ys => do
      let d ← depth y
      depthMaxFold (max acc d) ys

end

/-- Python list read xs[k]: a negative index counts from the end; an index
outside -len(xs) <= k < len(xs) raises IndexError. -/
def pyGetItem (xs : List Value) (k : Int) : Except Err Value :=
  let j : Int := if k < 0 then k + (xs.length : Int) else k
  match (if 0 ≤ j then xs.get? j.toNat else none) with
  | some v => .ok v
  | none => .error .indexError

/-- Python list write xs[k] = v with the same index normalization as reads. -/
def pySetItem (xs : List Value) (k : Int) (v : Value) : Except Err (List Value) :=
  let j : Int := if k < 0 then k + (xs.length : Int) else k
  if 0 ≤ j ∧ j < (xs.length : Int) then .ok (xs.set j.toNat v)
  else .error .indexError

/-- Fuel-driven helper so that the bit length reduces by kernel computation. -/
def bitlenAux : Nat → Nat → Nat
  | 0, _ => 0
  | fuel + 1, n => if n = 0 then 0 else bitlenAux fuel (n / 2) + 1

/-- Number of binary digits of n (0 for 0); fuel n is enough since each step
halves the argument. -/
def bitlen (n : Nat) : Nat := bitlenAux n n

/-- Decides 2 ^ e <= n / d for positive n, d by cross multiplication, with
the power moved to whichever side keeps the exponent a natural number. -/
def pow2Le (e : Int) (n d : Nat) : Bool :=
  decide (d * 2 ^ e.toNat ≤ n * 2 ^ (-e).toNat)

/-- pydiv a b translates int(left / right) of Divide.evaluate (nodes.py line
174) for b ≠ 0. CPython's true division of two ints correctly rounds the
exact quotient a / b to the nearest IEEE-754 binary64 (ties to even, gradual
underflow below 2 ^ (-1022), OverflowError once the rounded magnitude
reaches 2 ^ 1024), and int() then truncates that double toward zero.
The computation: e is the floor of log2 of the magnitude of the quotient,
q the exponent of the rounding quantum (e - 52, floored at -1074 in the
subnormal range), m the half-even rounding of |a/b| / 2 ^ q, and the result
is the sign-adjusted truncation of m * 2 ^ q. -/
def pydiv (a b : Int) : Except Err Int :=
  let n := a.natAbs
  let d := b.natAbs
  if n = 0 then .ok 0
  else
    let e0 : Int := (bitlen n : Int) - (bitlen d : Int)
    let e : Int := if pow2Le e0 n d then e0 else e0 - 1
    let q : Int := max (e - 52) (-1074)
    let bigN := n * 2 ^ (-q).toNat
    let bigD := d * 2 ^ q.toNat
    let quot := bigN / bigD
    let rem := bigN % bigD
    let m := if 2 * rem < bigD then quot
             else if bigD < 2 * rem then quot + 1
             else if quot % 2 = 0 then quot else quot + 1
    if 2 ^ (1024 + (-q).toNat) ≤ m * 2 ^ q.toNat then .error .overflowError
    else
      let t : Nat := if 0 ≤ q then m * 2 ^ q.toNat else m / 2 ^ (-q).toNat
      .ok (if a * b < 0 then -(t : Int) else (t : Int))

/-- Expression nodes of the abstract syntax tree, one constructor per node
class of nodes.py that the verified claims exercise. IntLiteral stores the
int the node carries (parsed literals are the nonnegative decimal value of
the digit token). -/
inductive Expr where
  | IntLiteral : Int → Expr
  | StringLiteral : String → Expr
  | Variable : String → Expr
  | Add : Expr → Expr → Expr
  | Subtract : Expr → Expr → Expr
  | Divide : Expr → Expr → Expr
  | MakeEmptyList : Expr
  | MakeSingleElementList : Expr → Expr
  | MakeList : Expr → Expr → Expr
  | VarIndex : Expr → Expr → Expr
deriving DecidableEq

/-- Statement nodes the verified claims exercise. -/
inductive Stmt where
  | Assign : Expr → Expr → Stmt
  | Print : Expr → Stmt
  | If : Expr → Stmt → Stmt
  | IfElse : Expr → Stmt → Stmt → Stmt
deriving DecidableEq

/-- Result of Node.location() (nodes.py): a Variable yields its name, a
VarIndex yields the pair of its variable part's location and its evaluated
index; every other node raises the base class Exception. -/
inductive Loc where
  | name : String → Loc
  | pair : Loc → Value → Loc

/-- MakeList.evaluate (nodes.py lines 319-330) after both children have been
evaluated: if depth(element1) > depth(element2) the first value's elements
are spliced in with l.extend, else the first value is appended whole; the
second value is always appended as one item. Extending from a str splits it
into one-character strings (Python iteration over a str); extending from an
int would raise TypeError — that branch is unreachable because an int has
depth 0, which exceeds nothing. -/
def MakeListEval (v1 v2 : Value) : Except Err Value := do
  let d1 ← depth v1
  let d2 ← depth v2
  if d2 < d1 then
    match v1 with
    | .list xs => .ok (.list (xs ++ [v2]))
    | .str s => .ok (.list ((s.data.map fun c => Value.str (String.mk [c])) ++ [v2]))
    | .int _ => .error .typeError
  else
    .ok (.list [v1, v2])

/-- VarIndex.evaluate (nodes.py lines 514-523) after both children have been
evaluated: SemanticError if the variable's value is not a list, then
SemanticError if the index is not an int, then SemanticError if
index >= len(var); otherwise the raw Python subscript var[index], which
resolves negative indices from the end and raises IndexError below
-len(var). -/
def VarIndexEval (var idx : Value) : Except Err Value :=
  match var with
  | .list xs =>
      match idx with
      | .int k =>
          if (xs.length : Int) ≤ k then .error .semanticError
          else pyGetItem xs k
      | _ => .error .semanticError
  | _ => .error .semanticError

/-- evaluate() of the expression nodes, reading the global environment.
Operand evaluation is eager and left to right, and each operator checks its
operand-type contract exactly as the corresponding evaluate method does. -/
def evaluate (env : Env) : Expr → Except Err Value
  | .IntLiteral n => .ok (.int n)
  | .StringLiteral s => .ok (.str s)
  | .Variable x =>
      match envLookup env x with
      | some v => .ok v
      | none => .error .semanticError
  | .Add l r => do
      let lv ← evaluate env l
      let rv ← evaluate env r
      match lv, rv with
      | .int x, .int y => .ok (.int (x + y))
      | .str x, .str y => .ok (.str (x ++ y))
      | _, _ => .error .semanticError
  | .Subtract l r => do
      let lv ← evaluate env l
      let rv ← evaluate env r
      match lv, rv with
      | .int x, .int y => .ok (.int (x - y))
      | _, _ => .error .semanticError
  | .Divide l r => do
      let lv ← evaluate env l
      let rv ← evaluate env r
      match lv, rv with
      | .int x, .int y =>
          if y = 0 then .error .semanticError
          else do
            let z ← pydiv x y
            .ok (.int z)
      | _, _ => .error .semanticError
  | .MakeEmptyList => .ok (.list [])
  | .MakeSingleElementList e => do
      let v ← evaluate env e
      .ok (.list [v])
  | .MakeList e1 e2 => do
      let v1 ← evaluate env e1
      let v2 ← evaluate env e2
      MakeListEval v1 v2
  | .VarIndex ve ie => do
      let v ← evaluate env ve
      let w ← evaluate env ie
      VarIndexEval v w

/-- location() of the nodes that support it: a Variable returns its name, a
VarIndex returns (var.location(), index.evaluate()) built left to right, and
every other node raises the Node base class Exception("Not implemented."). -/
def location (env : Env) : Expr → Except Err Loc
  | .Variable x => .ok (.name x)
  | .VarIndex ve ie => do
      let base ← location env ve
      let idx ← evaluate env ie
      .ok (.pair base idx)
  | _ => .error .notImplemented

/-- execute() of the statement nodes. The state is the pair of the global
environment and the list of values printed so far (Print emits
repr(value) as one output line; the model records the value itself).
Assign (nodes.py lines 122-127) dispatches on whether its left side is a
VarIndex node: if so it first resolves the (name, index) location, then
evaluates the right side, then subscript-assigns into the dict entry, where
a missing name is a KeyError, a non-list entry a TypeError, a non-int index
a TypeError and an out-of-range index an IndexError; otherwise the right
side is evaluated first and then the left side's location is resolved and
the dict entry overwritten. If (lines 214-221) skips its statement exactly
when the condition value equals 0; IfElse (lines 610-617) runs the if-branch
exactly when the condition value equals 1. -/
def execute : Stmt → Env × List Value → Except Err (Env × List Value)
  | .Assign lhs rhs, (env, out) =>
      match lhs with
      | .VarIndex ve ie => do
          let base ← location env ve
          let idx ← evaluate env ie
          let rv ← evaluate env rhs
          match base with
          | .name x =>
              match envLookup env x with
              | none => .error .keyError
              | some (.list xs) =>
                  match idx with
                  | .int k => do
                      let xs2 ← pySetItem xs k rv
                      .ok (envSet env x (.list xs2), out)
                  | _ => .error .typeError
              | some _ => .error .typeError
          | .pair _ _ => .error .keyError
      | .Variable x => do
          let rv ← evaluate env rhs
          .ok (envSet env x rv, out)
      | _ => do
          let _ ← evaluate env rhs
          .error .notImplemented
  | .Print e, (env, out) => do
      let v ← evaluate env e
      .ok (env, out ++ [v])
  | .If c s, (env, out) => do
      let v ← evaluate env c
      match v with
      | .int c0 => if c0 = 0 then .ok (env, out) else execute s (env, out)
      | _ => execute s (env, out)
  | .IfElse c s t, (env, out) => do
      let v ← evaluate env c
      match v with
      | .int c0 => if c0 = 1 then execute s (env, out) else execute t (env, out)
      | _ => execute t (env, out)

/-- Executes a list of statements strictly in their written order, threading
the environment and output; this is what the specification's root
statement-sequence node would do. -/
def executeAll : List Stmt → Env × List Value → Except Err (Env × List Value)
  | [], st => .ok st
  | s :: rest, st => do
      let st2 ← execute s st
      executeAll rest st2

/-- START (main.py lines 16-17): the grammar rule START/a -> (statement/a)*
rebinds a on every repetition, so the root node handed back by the parser is
only the last top-level statement (none for an empty program); the earlier
statements are parsed and their nodes discarded. -/
def START (stmts : List Stmt) : Option Stmt := stmts.getLast?

/-- Abstract syntax of the three top-level statements of the program
x = 5; y = 3; print(x + y); in written order. -/
def exampleProgram : List Stmt :=
  [ .Assign (.Variable "x") (.IntLiteral 5),
    .Assign (.Variable "y") (.IntLiteral 3),
    .Print (.Add (.Variable "x") (.Variable "y")) ]

end ScriptLang

namespace ScriptLang

/-- Reducing a successful Except bind, stated for rewriting. -/
theorem okBind {α β : Type} (a : α) (f : α → Except Err β) :
    (Except.ok a : Except Err α) >>= f = f a := rfl

/-- Reducing a failed Except bind, stated for rewriting. -/
theorem errorBind {α β : Type} (e : Err) (f : α → Except Err β) :
    (Except.error e : Except Err α) >>= f = Except.error e := rfl

/-- Writing a name and reading it back yields the written value. -/
theorem envLookup_envSet_self (env : Env) (x : String) (v : Value) :
    envLookup (envSet env x v) x = some v := by
  induction env with
  | nil => simp [envSet, envLookup]
  | cons kv rest ih =>
      obtain ⟨k, w⟩ := kv
      by_cases hk : k = x
      · subst hk
        simp [envSet, envLookup]
      · simp [envSet, envLookup, hk, ih]

/-- Writing a name leaves the binding of every other name unchanged. -/
theorem envLookup_envSet_ne (env : Env) (x y : String) (v : Value) (h : y ≠ x) :
    envLookup (envSet env x v) y = envLookup env y := by
  induction env with
  | nil =>
      simp only [envSet, envLookup]
      rw [if_neg fun hxy => h hxy.symm]
  | cons kv rest ih =>
      obtain ⟨k, w⟩ := kv
      by_cases hk : k = x
      · subst hk
        have hky : ¬ (k = y) := fun hky => h hky.symm
        simp [envSet, envLookup, hky]
      · by_cases hky : k = y
        · simp [envSet, envLookup, hk, hky, h]
        · simp [envSet, envLookup, hk, hky, ih]

/-- A successful Python list write hits a position inside the list and
replaces exactly that position. -/
theorem pySetItem_ok (xs : List Value) (k : Int) (v : Value) (xs2 : List Value)
    (h : pySetItem xs k v = Except.ok xs2) :
    0 ≤ (if k < 0 then k + (xs.length : Int) else k)
    ∧ (if k < 0 then k + (xs.length : Int) else k) < (xs.length : Int)
    ∧ xs2 = xs.set (if k < 0 then k + (xs.length : Int) else k).toNat v := by
  by_cases hc : 0 ≤ (if k < 0 then k + (xs.length : Int) else k)
      ∧ (if k < 0 then k + (xs.length : Int) else k) < (xs.length : Int)
  · refine ⟨hc.1, hc.2, ?_⟩
    simp only [pySetItem, if_pos hc] at h
    exact (Except.ok.inj h).symm
  · exfalso
    simp only [pySetItem, if_neg hc] at h
    exact Except.noConfusion h

/-- VarIndex on a list value and an in-range int index (the Python-valid
range) returns the element at the normalized position. -/
theorem VarIndexEval_in_range (xs : List Value) (k : Int)
    (h1 : -(xs.length : Int) ≤ k) (h2 : k < (xs.length : Int)) :
    ∃ u, xs.get? (if k < 0 then k + (xs.length : Int) else k).toNat = some u ∧
      VarIndexEval (Value.list xs) (Value.int k) = Except.ok u := by
  have hj0 : 0 ≤ (if k < 0 then k + (xs.length : Int) else k) := by
    split <;> omega
  have hjlt : (if k < 0 then k + (xs.length : Int) else k) < (xs.length : Int) := by
    split <;> omega
  have hlt : (if k < 0 then k + (xs.length : Int) else k).toNat < xs.length := by
    omega
  refine ⟨xs.get ⟨_, hlt⟩, List.get?_eq_get hlt, ?_⟩
  simp only [VarIndexEval]
  rw [if_neg (by omega : ¬ (xs.length : Int) ≤ k)]
  simp only [pyGetItem]
  rw [if_pos hj0, List.get?_eq_get hlt]

end ScriptLang

namespace ScriptLang

/-- Claim C1 (code bug, evaluated at the failing input): the grammar rule
START/a -> (statement/a)* rebinds a on every repetition, so parsing the
program x = 5; y = 3; print(x + y); yields only the final print statement
rather than a root statement-sequence node. Executing that lone statement
faults on the undefined variable x with SemanticError and prints nothing
(the driver then emits SEMANTIC ERROR, not 8), whereas executing the three
statements in written order, as the claim describes, prints exactly the
value 8. -/
theorem START_keeps_only_last_statement :
    START exampleProgram
        = some (Stmt.Print (Expr.Add (Expr.Variable "x") (Expr.Variable "y")))
    ∧ execute (Stmt.Print (Expr.Add (Expr.Variable "x") (Expr.Variable "y"))) ([], [])
        = Except.error Err.semanticError
    ∧ executeAll exampleProgram ([], [])
        = Except.ok ([("x", Value.int 5), ("y", Value.int 3)], [Value.int 8]) :=
  ⟨rfl, rfl, rfl⟩

/-- Claim C2 counterexample: the literal [[1],2], which the grammar parses as
MakeList(MakeSingleElementList(1), 2), evaluates to the flat 2-element list
[1, 2] and not to [[1], 2]: the first operand has depth 1 > depth 0 of the
second, so MakeList splices its elements instead of appending it whole. -/
theorem nested_list_literal_flattens :
    evaluate [] (Expr.MakeList (Expr.MakeSingleElementList (Expr.IntLiteral 1))
        (Expr.IntLiteral 2))
      = Except.ok (Value.list [Value.int 1, Value.int 2])
    ∧ Value.list [Value.int 1, Value.int 2]
        ≠ Value.list [Value.list [Value.int 1], Value.int 2] :=
  ⟨rfl, by simp⟩

/-- Claim C2 (amended): [1,2,3] evaluates to the 3-element ordered list
[1,2,3], and [[1],2] evaluates to the flat 2-element list [1,2] produced by
splicing the deeper first operand. -/
theorem list_literal_evaluations :
    evaluate [] (Expr.MakeList (Expr.MakeList (Expr.IntLiteral 1) (Expr.IntLiteral 2))
        (Expr.IntLiteral 3))
      = Except.ok (Value.list [Value.int 1, Value.int 2, Value.int 3])
    ∧ evaluate [] (Expr.MakeList (Expr.MakeSingleElementList (Expr.IntLiteral 1))
        (Expr.IntLiteral 2))
      = Except.ok (Value.list [Value.int 1, Value.int 2]) :=
  ⟨rfl, rfl⟩

/-- Claim C3 counterexample: with the evaluated operand values e1 = [] and
e2 = 1 the claim requires MakeList to return a list, but the code raises
ValueError inside depth([]) and returns nothing at all. -/
theorem MakeList_empty_operand_raises :
    evaluate [] (Expr.MakeList Expr.MakeEmptyList (Expr.IntLiteral 1))
        = Except.error Err.valueError
    ∧ MakeListEval (Value.list []) (Value.int 1) = Except.error Err.valueError :=
  ⟨rfl, rfl⟩

/-- Claim C3 (amended): for evaluated operand values on which the depth
computation succeeds (no empty list occurs anywhere inside either operand),
MakeList returns the elements of e1 followed by e2 as one appended item when
depth(e1) > depth(e2), and otherwise the 2-element list [e1, e2]; when the
depth computation fails, MakeList propagates that failure instead of
returning a list. -/
theorem MakeList_depth_rule (v1 v2 : Value) (d1 d2 : Nat)
    (h1 : depth v1 = Except.ok d1) (h2 : depth v2 = Except.ok d2) :
    (d2 < d1 → ∃ xs, v1 = Value.list xs
        ∧ MakeListEval v1 v2 = Except.ok (Value.list (xs ++ [v2])))
    ∧ (d1 ≤ d2 → MakeListEval v1 v2 = Except.ok (Value.list [v1, v2])) := by
  constructor
  · intro hlt
    cases v1 with
    | int n =>
        exfalso
        simp [depth] at h1
        omega
    | str s =>
        exfalso
        simp [depth] at h1
        omega
    | list xs =>
        refine ⟨xs, rfl, ?_⟩
        simp [MakeListEval, h1, h2, hlt, okBind]
  · intro hle
    simp [MakeListEval, h1, h2, okBind, (by omega : ¬ d2 < d1)]
    intro hcon
    exact absurd hcon (by omega)

/-- Witness for the amended claim C3 at concrete operands [1] and 2 (depths
1 and 0: splice) and at 1 and 2 (depths 0 and 0: append both whole). -/
theorem MakeList_depth_rule_witness :
    MakeListEval (Value.list [Value.int 1]) (Value.int 2)
        = Except.ok (Value.list [Value.int 1, Value.int 2])
    ∧ MakeListEval (Value.int 1) (Value.int 2)
        = Except.ok (Value.list [Value.int 1, Value.int 2]) := by
  constructor
  · obtain ⟨xs, hxs, hc⟩ :=
      (MakeList_depth_rule (Value.list [Value.int 1]) (Value.int 2) 1 0 rfl rfl).1
        (by omega)
    cases hxs
    simpa using hc
  · exact (MakeList_depth_rule (Value.int 1) (Value.int 2) 0 0 rfl rfl).2 (by omega)

/-- Claim C4 (code bug, evaluated at the failing input): depth([]) raises
ValueError — Python max() applied to an empty sequence — instead of
returning 1, so depth is not total on all acyclic values; the non-list
clause (0) and the nonempty-list clause (1 + maximum element depth) are what
the code computes, shown here at sample values. -/
theorem depth_empty_list_raises :
    depth (Value.list []) = Except.error Err.valueError
    ∧ depth (Value.int 0) = Except.ok 0
    ∧ depth (Value.str "a") = Except.ok 0
    ∧ depth (Value.list [Value.int 1, Value.list [Value.int 2]]) = Except.ok 2 :=
  ⟨rfl, rfl, rfl, rfl⟩

end ScriptLang

namespace ScriptLang

/-- Claim C5 counterexample: with the nonzero Integer condition 2, IfElse
executes the else branch (printing 2) instead of the if branch required by
the claim, because IfElse.evaluate tests the evaluated condition against 1
rather than against nonzero. -/
theorem IfElse_nonzero_condition_takes_else :
    execute (Stmt.IfElse (Expr.IntLiteral 2)
        (Stmt.Print (Expr.IntLiteral 1)) (Stmt.Print (Expr.IntLiteral 2))) ([], [])
      = Except.ok ([], [Value.int 2])
    ∧ ([Value.int 2] : List Value) ≠ [Value.int 1] :=
  ⟨rfl, by simp⟩

/-- Claim C5 (amended): for an Integer condition value c, executing If(c, s)
executes s exactly when c is nonzero, while executing IfElse(c, s, t)
executes s exactly when c equals 1 and executes t exactly when c differs
from 1 — so nonzero conditions other than 1 take the else branch. -/
theorem If_IfElse_branching (env : Env) (out : List Value) (e : Expr) (c : Int)
    (s t : Stmt) (h : evaluate env e = Except.ok (Value.int c)) :
    execute (Stmt.If e s) (env, out)
        = (if c = 0 then Except.ok (env, out) else execute s (env, out))
    ∧ execute (Stmt.IfElse e s t) (env, out)
        = (if c = 1 then execute s (env, out) else execute t (env, out)) := by
  constructor
  · simp only [execute, h, okBind]
  · simp only [execute, h, okBind]

/-- Witness for the amended claim C5 at the concrete conditions 0 and 1. -/
theorem If_IfElse_branching_witness :
    execute (Stmt.If (Expr.IntLiteral 0) (Stmt.Print (Expr.IntLiteral 7))) ([], [])
        = Except.ok ([], [])
    ∧ execute (Stmt.IfElse (Expr.IntLiteral 1)
        (Stmt.Print (Expr.IntLiteral 1)) (Stmt.Print (Expr.IntLiteral 2))) ([], [])
        = execute (Stmt.Print (Expr.IntLiteral 1)) ([], []) := by
  constructor
  · have h := (If_IfElse_branching [] [] (Expr.IntLiteral 0) 0
        (Stmt.Print (Expr.IntLiteral 7)) (Stmt.Print (Expr.IntLiteral 7)) rfl).1
    simpa using h
  · have h := (If_IfElse_branching [] [] (Expr.IntLiteral 1) 1
        (Stmt.Print (Expr.IntLiteral 1)) (Stmt.Print (Expr.IntLiteral 2)) rfl).2
    simpa using h

/-- Claim C6 (code bug, evaluated at the failing input): Divide(2^62 + 1, 1)
returns 2^62 = 4611686018427387904, not the truncation toward zero of the
exact quotient, which is 2^62 + 1 = 4611686018427387905 as the second
conjunct records: int(left / right) first rounds the quotient to binary64,
which loses the low bits of any magnitude above 2^53. -/
theorem Divide_rounds_through_binary64 :
    evaluate [] (Expr.Divide (Expr.IntLiteral 4611686018427387905) (Expr.IntLiteral 1))
        = Except.ok (Value.int 4611686018427387904)
    ∧ (4611686018427387905 : Int) / 1 = 4611686018427387905 :=
  ⟨rfl, rfl⟩

/-- Claim C7: once its children evaluate to values v and w, VarIndex returns
the element at the (Python-normalized) index exactly when v is a List, w an
Integer and the index lies in the valid range -len <= k < len; in every
other case — non-list variable, non-integer index, index >= len (the
explicit SemanticError check) or index < -len (the raw IndexError) — it
raises a fault. -/
theorem VarIndex_contract (env : Env) (ve ie : Expr) (v w : Value)
    (hv : evaluate env ve = Except.ok v) (hw : evaluate env ie = Except.ok w) :
    (∀ xs k, v = Value.list xs → w = Value.int k →
        -(xs.length : Int) ≤ k → k < (xs.length : Int) →
        ∃ u, xs.get? (if k < 0 then k + (xs.length : Int) else k).toNat = some u ∧
          evaluate env (Expr.VarIndex ve ie) = Except.ok u)
    ∧ ((∀ xs, v ≠ Value.list xs) ∨ (∀ k, w ≠ Value.int k) ∨
        (∃ xs k, v = Value.list xs ∧ w = Value.int k ∧
          (k < -(xs.length : Int) ∨ (xs.length : Int) ≤ k)) →
        ∃ err, evaluate env (Expr.VarIndex ve ie) = Except.error err) := by
  have heval : evaluate env (Expr.VarIndex ve ie) = VarIndexEval v w := by
    simp [evaluate, hv, hw, okBind]
  constructor
  · rintro xs k rfl rfl hge hlt
    obtain ⟨u, hu, hV⟩ := VarIndexEval_in_range xs k hge hlt
    exact ⟨u, hu, heval.trans hV⟩
  · rintro (hnl | hni | ⟨xs, k, rfl, rfl, hout⟩)
    · cases v with
      | list xs => exact absurd rfl (hnl xs)
      | int n => exact ⟨Err.semanticError, by rw [heval]; rfl⟩
      | str s => exact ⟨Err.semanticError, by rw [heval]; rfl⟩
    · cases v with
      | int n => exact ⟨Err.semanticError, by rw [heval]; rfl⟩
      | str s => exact ⟨Err.semanticError, by rw [heval]; rfl⟩
      | list xs =>
          cases w with
          | int k => exact absurd rfl (hni k)
          | str s => exact ⟨Err.semanticError, by rw [heval]; rfl⟩
          | list ys => exact ⟨Err.semanticError, by rw [heval]; rfl⟩
    · rcases hout with hlow | hhigh
      · refine ⟨Err.indexError, ?_⟩
        rw [heval]
        simp only [VarIndexEval]
        rw [if_neg (by omega : ¬ (xs.length : Int) ≤ k)]
        have hk0 : k < 0 := by omega
        have hj : ¬ (0 ≤ k + (xs.length : Int)) := by omega
        simp [pyGetItem, hk0, hj]
      · exact ⟨Err.semanticError, by
          rw [heval]
          simp [VarIndexEval, hhigh]⟩

/-- Witness for claim C7 at a concrete 2-element list and index 1. -/
theorem VarIndex_contract_witness :
    ∃ u, ([Value.int 10, Value.int 20].get?
        (if (1 : Int) < 0 then 1 + (([Value.int 10, Value.int 20] : List Value).length : Int)
         else 1).toNat = some u) ∧
      evaluate [("l", Value.list [Value.int 10, Value.int 20])]
          (Expr.VarIndex (Expr.Variable "l") (Expr.IntLiteral 1)) = Except.ok u :=
  (VarIndex_contract [("l", Value.list [Value.int 10, Value.int 20])]
      (Expr.Variable "l") (Expr.IntLiteral 1)
      (Value.list [Value.int 10, Value.int 20]) (Value.int 1) rfl rfl).1
    [Value.int 10, Value.int 20] 1 rfl rfl (by norm_num) (by norm_num)

end ScriptLang

namespace ScriptLang

/-- Claim C8: assigning the value v computed by an expression to a bare
variable name x and then evaluating a variable reference to x returns
exactly the assigned value (structural equality is plain equality in this
value model). -/
theorem Assign_then_read_roundtrip (env : Env) (out : List Value) (e : Expr)
    (x : String) (v : Value) (h : evaluate env e = Except.ok v) :
    execute (Stmt.Assign (Expr.Variable x) e) (env, out)
        = Except.ok (envSet env x v, out)
    ∧ evaluate (envSet env x v) (Expr.Variable x) = Except.ok v := by
  constructor
  · simp [execute, h, okBind]
  · simp [evaluate, envLookup_envSet_self]

/-- Witness for claim C8: x = 5 followed by reading x gives back 5. -/
theorem Assign_then_read_roundtrip_witness :
    execute (Stmt.Assign (Expr.Variable "x") (Expr.IntLiteral 5)) ([], [])
        = Except.ok ([("x", Value.int 5)], [])
    ∧ evaluate [("x", Value.int 5)] (Expr.Variable "x") = Except.ok (Value.int 5) := by
  have h := Assign_then_read_roundtrip [] [] (Expr.IntLiteral 5) "x" (Value.int 5) rfl
  simpa [envSet] using h

/-- Claim C9: a successful Assign to a bare variable target x changes no
binding other than x; a successful Assign to an indexed target x[i] changes
no binding other than x (the list object bound to x is updated in place, so
x stays bound to it) and replaces only the cell at the normalized position
of the evaluated index i, every other cell of the list keeping its value. -/
theorem Assign_frame_property :
    (∀ (env : Env) (out : List Value) (x : String) (e : Expr)
        (env2 : Env) (out2 : List Value),
        execute (Stmt.Assign (Expr.Variable x) e) (env, out) = Except.ok (env2, out2) →
        ∀ y, y ≠ x → envLookup env2 y = envLookup env y)
    ∧ (∀ (env : Env) (out : List Value) (x : String) (ie e : Expr)
        (env2 : Env) (out2 : List Value),
        execute (Stmt.Assign (Expr.VarIndex (Expr.Variable x) ie) e) (env, out)
            = Except.ok (env2, out2) →
        (∀ y, y ≠ x → envLookup env2 y = envLookup env y)
        ∧ ∃ xs k rv xs2, envLookup env x = some (Value.list xs)
            ∧ evaluate env ie = Except.ok (Value.int k)
            ∧ evaluate env e = Except.ok rv
            ∧ pySetItem xs k rv = Except.ok xs2
            ∧ env2 = envSet env x (Value.list xs2)
            ∧ ∀ m : Nat, ((m : Int) ≠ if k < 0 then k + (xs.length : Int) else k) →
                xs2.get? m = xs.get? m) := by
  constructor
  · intro env out x e env2 out2 hex y hy
    cases he : evaluate env e with
    | error err => simp [execute, he, errorBind] at hex
    | ok rv =>
        simp only [execute, he, okBind, Except.ok.injEq, Prod.mk.injEq] at hex
        rw [← hex.1]
        exact envLookup_envSet_ne env x y rv hy
  · intro env out x ie e env2 out2 hex
    cases hie : evaluate env ie with
    | error err => simp [execute, location, hie, okBind, errorBind] at hex
    | ok w =>
    cases he : evaluate env e with
    | error err => simp [execute, location, hie, he, okBind, errorBind] at hex
    | ok rv =>
    cases hx : envLookup env x with
    | none => simp [execute, location, hie, he, hx, okBind, errorBind] at hex
    | some val =>
    cases val with
    | int n => simp [execute, location, hie, he, hx, okBind, errorBind] at hex
    | str s => simp [execute, location, hie, he, hx, okBind, errorBind] at hex
    | list xs =>
    cases w with
    | str s => simp [execute, location, hie, he, hx, okBind, errorBind] at hex
    | list ys => simp [execute, location, hie, he, hx, okBind, errorBind] at hex
    | int k =>
    cases hset : pySetItem xs k rv with
    | error err => simp [execute, location, hie, he, hx, hset, okBind, errorBind] at hex
    | ok xs2 =>
        simp only [execute, location, hie, he, hx, hset, okBind, errorBind,
          Except.ok.injEq, Prod.mk.injEq] at hex
        obtain ⟨henv, hout⟩ := hex
        constructor
        · intro y hy
          rw [← henv]
          exact envLookup_envSet_ne env x y (Value.list xs2) hy
        · refine ⟨xs, k, rv, xs2, rfl, rfl, rfl, hset, henv.symm, ?_⟩
          obtain ⟨hj0, hjlt, hxs2⟩ := pySetItem_ok xs k rv xs2 hset
          intro m hm
          rw [hxs2]
          apply List.get?_set_ne
          omega

/-- Witness for claim C9: the bare assignment a = 1 leaves b bound as it
was, and the indexed assignment a[0] = 9 leaves b and the other cell of a
unchanged. -/
theorem Assign_frame_property_witness :
    envLookup [("b", Value.int 2), ("a", Value.int 1)] "b"
        = envLookup [("b", Value.int 2)] "b"
    ∧ envLookup [("a", Value.list [Value.int 9, Value.int 2]), ("b", Value.int 7)] "b"
        = envLookup [("a", Value.list [Value.int 1, Value.int 2]), ("b", Value.int 7)] "b" := by
  constructor
  · exact Assign_frame_property.1 [("b", Value.int 2)] [] "a" (Expr.IntLiteral 1)
      [("b", Value.int 2), ("a", Value.int 1)] [] rfl "b" (by decide)
  · exact (Assign_frame_property.2 [("a", Value.list [Value.int 1, Value.int 2]), ("b", Value.int 7)]
      [] "a" (Expr.IntLiteral 0) (Expr.IntLiteral 9)
      [("a", Value.list [Value.int 9, Value.int 2]), ("b", Value.int 7)] [] rfl).1 "b" (by decide)

/-- Claim C10: negative indexing at the public interface: for a list of
length n bound to a global name and an Integer index k with -n ≤ k ≤ -1,
VarIndex on that variable and index raises no fault and returns the element
at position n + k. -/
theorem VarIndex_negative_indexing (env : Env) (x : String) (ie : Expr)
    (xs : List Value) (k : Int)
    (hx : envLookup env x = some (Value.list xs))
    (hie : evaluate env ie = Except.ok (Value.int k))
    (h1 : -(xs.length : Int) ≤ k) (h2 : k ≤ -1) :
    ∃ u, xs.get? (k + (xs.length : Int)).toNat = some u ∧
      evaluate env (Expr.VarIndex (Expr.Variable x) ie) = Except.ok u := by
  have hklt : k < (xs.length : Int) := by omega
  obtain ⟨u, hu, hV⟩ := VarIndexEval_in_range xs k h1 hklt
  rw [if_pos (by omega : k < 0)] at hu
  refine ⟨u, hu, ?_⟩
  have heval : evaluate env (Expr.VarIndex (Expr.Variable x) ie)
      = VarIndexEval (Value.list xs) (Value.int k) := by
    simp [evaluate, hx, hie, okBind]
  rw [heval, hV]

/-- Witness for claim C10: reading l[-1] from l = [10, 20] yields 20, the
element at position 2 + (-1) = 1; the index -1 arises from the expression
0 - 1 as the grammar would produce it. -/
theorem VarIndex_negative_indexing_witness :
    ∃ u, ([Value.int 10, Value.int 20].get?
        ((-1 + (([Value.int 10, Value.int 20] : List Value).length : Int)).toNat) = some u) ∧
      evaluate [("l", Value.list [Value.int 10, Value.int 20])]
          (Expr.VarIndex (Expr.Variable "l")
            (Expr.Subtract (Expr.IntLiteral 0) (Expr.IntLiteral 1))) = Except.ok u :=
  VarIndex_negative_indexing [("l", Value.list [Value.int 10, Value.int 20])] "l"
    (Expr.Subtract (Expr.IntLiteral 0) (Expr.IntLiteral 1))
    [Value.int 10, Value.int 20] (-1) rfl rfl (by norm_num) (by norm_num)

end ScriptLang
